import Mathlib

/-!
Verification development for the capstone sales ETL pipeline
(`src/config/pipeline_config.py`, `src/scripts/validator.py`,
`src/scripts/transformer.py`).

Modelling conventions:
* Python/pandas floats are modelled as exact rationals (`ℚ`); `round(x, 2)`
  (numpy/python round-half-to-even) is modelled by `round2` below using
  round-half-to-even on exact rationals.
* A pandas DataFrame of validated records is a `List VRecord` (row order is
  the list order); the raw frame read from CSV is a `Frame` carrying its
  header column list plus rows whose required cells may be missing (`Option`),
  mirroring NaN cells.
* `pd.to_datetime` is modelled on ISO `YYYY-MM-DD` inputs (the format the
  pipeline itself produces and the claims exercise) by `parseDate?`; an
  unparseable date gives `none` (NaT), which the validator drops and which
  makes the transformer's date step fail (pandas raises there).
* Fallible steps return `Option`/`Except`; the unguarded Python division in
  `process_file` is modelled by an explicit `zeroDivision` error.
-/

/-! ## Rule catalog (`src/config/pipeline_config.py`) -/

def REQUIRED_COLUMNS : List String :=
  ["transaction_id", "date", "region", "product", "quantity", "price", "customer_id"]

def MIN_QUANTITY : Int := 1

def MAX_QUANTITY : Int := 1000

def MIN_PRICE : ℚ := 1 / 100

def MAX_PRICE : ℚ := 100000

def VALID_REGIONS : List String := ["North", "South", "East", "West", "Central"]

/-! ## Decimal rounding (python `round(x, 2)` / pandas `.round(2)`) -/

/-- Round a rational to the nearest integer, ties to even
(the rounding used by python `round` and numpy). -/
def rhe (q : ℚ) : Int :=
  let f : Int := ⌊q⌋
  let r : ℚ := q - (f : ℚ)
  if r < 1 / 2 then f
  else if 1 / 2 < r then f + 1
  else if f % 2 = 0 then f else f + 1

/-- `round(x, 2)`: round to 2 decimal places, ties to even. -/
def round2 (q : ℚ) : ℚ := (rhe (q * 100) : ℚ) / 100

/-! ## Numeric string parsing (`pd.to_numeric`) -/

/-- Value of a decimal digit character. -/
def dVal (c : Char) : Option Nat :=
  if c.isDigit then some (c.toNat - 48) else none

/-- Decimal digit character of a digit value. -/
def dChar (n : Nat) : Char := Char.ofNat (48 + n % 10)

/-- Accumulate the value of a digit string; `none` on a non-digit. -/
def digitsVal? : List Char → Nat → Option Nat
  | [], acc => some acc
  | c :: rest, acc =>
    match dVal c with
    | some v => digitsVal? rest (acc * 10 + v)
    | none => none

/-- `pd.to_numeric` on a decimal literal string (optional sign, optional
fractional part), as an exact rational; `none` when unparseable (NaN). -/
def parseQ? (s : String) : Option ℚ :=
  let cs := s.toList
  let signed : ℚ × List Char :=
    match cs with
    | '-' :: rest => (-1, rest)
    | '+' :: rest => (1, rest)
    | _ => (1, cs)
  let sign := signed.1
  let body := signed.2
  if body.isEmpty then none
  else
    let ip := body.takeWhile Char.isDigit
    let rest := body.dropWhile Char.isDigit
    match rest with
    | [] => (digitsVal? ip 0).map (fun n => sign * (n : ℚ))
    | '.' :: fp =>
      if fp.all Char.isDigit ∧ (ip ≠ [] ∨ fp ≠ []) then
        match digitsVal? ip 0, digitsVal? fp 0 with
        | some i, some f =>
          some (sign * ((i : ℚ) + (f : ℚ) / ((10 : ℚ) ^ fp.length)))
        | _, _ => none
      else none
    | _ => none

/-- `pd.to_numeric(...).astype(Int64)` on a string cell: parses the number and
requires it to be integral. -/
def parseInt? (s : String) : Option Int := do
  let q ← parseQ? s
  if q.den = 1 then some q.num else none

/-! ## Calendar dates (`pd.to_datetime` on normalized input, `strftime`) -/

structure Date where
  year : Nat
  month : Nat
  day : Nat
deriving Repr, DecidableEq

def isLeap (y : Nat) : Bool := (y % 4 = 0 && y % 100 ≠ 0) || y % 400 = 0

def daysInMonth (y m : Nat) : Nat :=
  if m = 2 then (if isLeap y then 29 else 28)
  else if m = 4 ∨ m = 6 ∨ m = 9 ∨ m = 11 then 30
  else 31

/-- A calendar date the pipeline can represent. -/
def dateOK (d : Date) : Prop :=
  1 ≤ d.year ∧ d.year ≤ 9999 ∧ 1 ≤ d.month ∧ d.month ≤ 12 ∧
    1 ≤ d.day ∧ d.day ≤ daysInMonth d.year d.month

instance (d : Date) : Decidable (dateOK d) := by unfold dateOK; infer_instance

def mkValidDate (y m d : Nat) : Option Date :=
  if 1 ≤ y ∧ y ≤ 9999 ∧ 1 ≤ m ∧ m ≤ 12 ∧ 1 ≤ d ∧ d ≤ daysInMonth y m then
    some ⟨y, m, d⟩
  else none

/-- Parse a `YYYY-MM-DD` character list into a valid calendar date. -/
def parseDateList : List Char → Option Date
  | [a, b, c, d, h1, e, f, h2, g, i] =>
    if h1 = '-' ∧ h2 = '-' then do
      let a1 ← dVal a
      let b1 ← dVal b
      let c1 ← dVal c
      let d1 ← dVal d
      let e1 ← dVal e
      let f1 ← dVal f
      let g1 ← dVal g
      let i1 ← dVal i
      mkValidDate (1000 * a1 + 100 * b1 + 10 * c1 + d1) (10 * e1 + f1) (10 * g1 + i1)
    else none
  | _ => none

/-- `pd.to_datetime` restricted to the ISO `YYYY-MM-DD` strings the pipeline
produces and the claims exercise; `none` models NaT / a raised parse error. -/
def parseDate? (s : String) : Option Date := parseDateList s.toList

/-- `strftime('%Y-%m-%d')`: serialize a date back to `YYYY-MM-DD`. -/
def dateToString (d : Date) : String :=
  String.mk [dChar (d.year / 1000), dChar (d.year / 100 % 10),
    dChar (d.year / 10 % 10), dChar (d.year % 10), '-',
    dChar (d.month / 10), dChar (d.month % 10), '-',
    dChar (d.day / 10), dChar (d.day % 10)]

/-! ## Typed validated records -/

/-- A record after type coercion: the seven required columns with their
coerced types (`quantity` Int64, `price` float). -/
structure VRecord where
  transaction_id : String
  date : String
  region : String
  product : String
  quantity : Int
  price : ℚ
  customer_id : String
deriving Repr, DecidableEq, Inhabited

/-! ## Validator (`src/scripts/validator.py`, class DataValidator) -/

/-- A raw CSV row: each required cell may be missing (NaN). -/
structure RawRow where
  transaction_id : Option String
  date : Option String
  region : Option String
  product : Option String
  quantity : Option String
  price : Option String
  customer_id : Option String
deriving Repr, DecidableEq

/-- A raw frame read from CSV: its header columns plus its rows.
Rows model the cells of the required columns (extra columns carry no
pipeline-relevant data and are dropped by the schema step). -/
structure Frame where
  cols : List String
  rows : List RawRow
deriving Repr

inductive VError where
  | schemaError
  | zeroDivision
deriving Repr, DecidableEq

/-- The validator's metrics dictionary (processing time is out of scope). -/
structure VMetrics where
  total_records : Nat
  valid_records : Nat
  duplicates_removed : Nat
  null_values_removed : Nat
  invalid_quantity : Nat
  invalid_price : Nat
  invalid_region : Nat
  schema_errors : Nat
  rejection_rate_percent : ℚ
deriving Repr, DecidableEq

/-- `DataValidator.validate_schema`: raise if a required column is missing,
else keep exactly the required columns in declared order. -/
def validate_schema (f : Frame) : Except VError Frame :=
  if REQUIRED_COLUMNS.all (fun c => f.cols.contains c) then
    Except.ok { cols := REQUIRED_COLUMNS, rows := f.rows }
  else Except.error VError.schemaError

/-- `drop_duplicates(subset=['transaction_id'], keep='first')`:
keep the first row for each transaction id (missing ids compare equal). -/
def dedupGo (seen : List (Option String)) : List RawRow → List RawRow
  | [] => []
  | r :: rs =>
    if r.transaction_id ∈ seen then dedupGo seen rs
    else r :: dedupGo (r.transaction_id :: seen) rs

/-- `DataValidator.remove_duplicates`: deduplicated rows and the removed count. -/
def remove_duplicates (rows : List RawRow) : List RawRow × Nat :=
  let kept := dedupGo [] rows
  (kept, rows.length - kept.length)

def rowComplete (r : RawRow) : Bool :=
  r.transaction_id.isSome && r.date.isSome && r.region.isSome && r.product.isSome
    && r.quantity.isSome && r.price.isSome && r.customer_id.isSome

/-- `DataValidator.remove_nulls` (`df.dropna()`): kept rows and removed count. -/
def remove_nulls (rows : List RawRow) : List RawRow × Nat :=
  let kept := rows.filter rowComplete
  (kept, rows.length - kept.length)

/-- Coerce one row's cells to their expected types
(`quantity` integer, `price` float); `none` when a coercion fails. -/
def coerceRow (r : RawRow) : Option VRecord := do
  let tid ← r.transaction_id
  let dt ← r.date
  let reg ← r.region
  let prod ← r.product
  let qs ← r.quantity
  let ps ← r.price
  let cid ← r.customer_id
  let q ← parseInt? qs
  let p ← parseQ? ps
  some ⟨tid, dt, reg, prod, q, p, cid⟩

/-- `DataValidator.validate_data_types`: coerce and drop coercion failures. -/
def validate_data_types (rows : List RawRow) : List VRecord :=
  rows.filterMap coerceRow

/-- `DataValidator.validate_dates`: parse, drop invalid dates, and normalize
the survivors back to `YYYY-MM-DD` strings. -/
def validate_dates (rows : List VRecord) : List VRecord :=
  rows.filterMap (fun r => (parseDate? r.date).map (fun d => { r with date := dateToString d }))

structure BRCounts where
  invalid_quantity : Nat
  invalid_price : Nat
  invalid_region : Nat
deriving Repr, DecidableEq

/-- `DataValidator.validate_business_rules`: count per-dimension violators
independently, then keep the rows passing all three dimensions. -/
def validate_business_rules (rows : List VRecord) : List VRecord × BRCounts :=
  let invalid_qty := rows.filter
    (fun r => decide (r.quantity < MIN_QUANTITY) || decide (MAX_QUANTITY < r.quantity))
  let invalid_prc := rows.filter
    (fun r => decide (r.price < MIN_PRICE) || decide (MAX_PRICE < r.price))
  let invalid_reg := rows.filter (fun r => !(VALID_REGIONS.contains r.region))
  let kept := rows.filter
    (fun r => decide (MIN_QUANTITY ≤ r.quantity) && decide (r.quantity ≤ MAX_QUANTITY)
      && decide (MIN_PRICE ≤ r.price) && decide (r.price ≤ MAX_PRICE)
      && VALID_REGIONS.contains r.region)
  (kept, ⟨invalid_qty.length, invalid_prc.length, invalid_reg.length⟩)

/-- `DataValidator.process_file` without the S3 I/O collaborator: the ordered
rule pipeline plus the metrics computation. The final rejection-rate division
`(total - valid) / total` is unguarded in the source, so a zero-record input
is a `zeroDivision` fault. -/
def process_file (f : Frame) : Except VError (List VRecord × VMetrics) := do
  let total := f.rows.length
  let f1 ← validate_schema f
  let d1 := remove_duplicates f1.rows
  let d2 := remove_nulls d1.1
  let rows4 := validate_data_types d2.1
  let rows5 := validate_dates rows4
  let d6 := validate_business_rules rows5
  let valid := d6.1.length
  if total = 0 then Except.error VError.zeroDivision
  else
    let rate : ℚ := ((total : ℚ) - (valid : ℚ)) / (total : ℚ) * 100
    Except.ok (d6.1,
      { total_records := total
        valid_records := valid
        duplicates_removed := d1.2
        null_values_removed := d2.2
        invalid_quantity := d6.2.invalid_quantity
        invalid_price := d6.2.invalid_price
        invalid_region := d6.2.invalid_region
        schema_errors := 0
        rejection_rate_percent := round2 rate })

/-! ## Transformer (`src/scripts/transformer.py`, class DataTransformer) -/

/-- `DataTransformer.PRODUCT_CATEGORIES`. -/
def PRODUCT_CATEGORIES : List (String × String) :=
  [("Laptop", "Computing"), ("Desktop", "Computing"), ("Monitor", "Peripherals"),
   ("Keyboard", "Peripherals"), ("Mouse", "Peripherals"), ("Headset", "Audio"),
   ("Webcam", "Video"), ("Router", "Networking"), ("Switch", "Networking"),
   ("Cable", "Accessories")]

/-- `df['product'].map(PRODUCT_CATEGORIES)` with `fillna('Other')`. -/
def lookupCategory (p : String) : String :=
  (PRODUCT_CATEGORIES.lookup p).getD "Other"

/-- `DataTransformer.REVENUE_TIERS` ordered bands; `none` upper bound is
`float('inf')`. -/
def REVENUE_TIERS : List (String × ℚ × Option ℚ) :=
  [("Low", 0, some 100), ("Medium", 100, some 500),
   ("High", 500, some 2000), ("Premium", 2000, none)]

/-- `get_revenue_category`: first band with `lower <= revenue < upper`,
falling back to Premium. -/
def get_revenue_category (rev : ℚ) : String :=
  match REVENUE_TIERS.find? (fun t =>
    decide (t.2.1 ≤ rev) &&
      (match t.2.2 with
       | some u => decide (rev < u)
       | none => true)) with
  | some t => t.1
  | none => "Premium"

/-- `get_customer_segment` from a customer's batch-total revenue. -/
def get_customer_segment (total : ℚ) : String :=
  if total < 500 then "Bronze"
  else if total < 2000 then "Silver"
  else if total < 5000 then "Gold"
  else "Platinum"

/-- `calculate_revenue` per record: `round(quantity * price, 2)`. -/
def revenueOf (r : VRecord) : ℚ := round2 ((r.quantity : ℚ) * r.price)

/-- Per-customer batch revenue total (`df.groupby('customer_id')['revenue'].sum()`). -/
def customerTotal (df : List VRecord) (cid : String) : ℚ :=
  ((df.filter (fun r => decide (r.customer_id = cid))).map revenueOf).sum

/-- The `price` values of one product group. -/
def productPrices (df : List VRecord) (p : String) : List ℚ :=
  (df.filter (fun r => decide (r.product = p))).map VRecord.price

/-- The `quantity` values of one product group (as floats, as pandas ranks them). -/
def productQuantities (df : List VRecord) (p : String) : List ℚ :=
  (df.filter (fun r => decide (r.product = p))).map (fun r => (r.quantity : ℚ))

/-- The `revenue` values of one region group. -/
def regionRevenues (df : List VRecord) (reg : String) : List ℚ :=
  (df.filter (fun r => decide (r.region = reg))).map revenueOf

/-- `df.groupby('region')['revenue'].transform('mean')` for one region. -/
def regionalMean (df : List VRecord) (reg : String) : ℚ :=
  (regionRevenues df reg).sum / ((regionRevenues df reg).length : ℚ)

/-- pandas `rank(pct=True)` (method `'average'`, ascending) of value `v`
within the group values `l`: the average of the ranks of the entries equal
to `v`, divided by the group size. -/
def pctRank (v : ℚ) (l : List ℚ) : ℚ :=
  (((l.countP (fun x => decide (x < v))) : ℚ) + (((l.countP (fun x => decide (x = v))) : ℚ) + 1) / 2)
    / (l.length : ℚ)

/-- Insert into a sorted list (ascending). -/
def insertSorted (x : ℚ) : List ℚ → List ℚ
  | [] => [x]
  | y :: ys => if x ≤ y then x :: y :: ys else y :: insertSorted x ys

/-- Sort ascending (insertion sort). -/
def sortQ (l : List ℚ) : List ℚ := l.foldr insertSorted []

/-- pandas `Series.quantile(q)` with linear interpolation. -/
def quantileLin (l : List ℚ) (q : ℚ) : ℚ :=
  let s := sortQ l
  let n := s.length
  if n = 0 then 0
  else
    let pos : ℚ := q * ((n : ℚ) - 1)
    let i : Nat := (⌊pos⌋).toNat
    let frac : ℚ := pos - (i : ℚ)
    let a := s.getD i 0
    let b := s.getD (i + 1) a
    a + frac * (b - a)

/-- pandas `Series.median()`: middle element, or average of the two middles. -/
def medianQ (l : List ℚ) : ℚ :=
  let s := sortQ l
  let n := s.length
  if n = 0 then 0
  else if n % 2 = 1 then s.getD (n / 2) 0
  else (s.getD (n / 2 - 1) 0 + s.getD (n / 2) 0) / 2

/-- The enriched record: the validated columns plus every column the
transformer adds, in its column-adding order. -/
structure ERecord where
  base : VRecord
  revenue : ℚ
  year : Nat
  month : Nat
  month_name : String
  quarter : Nat
  day_of_week : Nat
  day_name : String
  week_of_year : Int
  is_business_day : Bool
  revenue_category : String
  product_category : String
  customer_segment : String
  price_percentile : ℚ
  is_high_value : Bool
  is_bulk_purchase : Bool
  quantity_percentile : ℚ
  regional_avg_revenue : ℚ
  above_regional_avg : Bool
deriving Repr, DecidableEq, Inhabited

/-- Days since 1970-01-01 of a Gregorian date (standard civil-days formula;
the pipeline only reaches it on valid parsed dates, where every intermediate
quantity is nonnegative). -/
def daysFromCivil (y m d : Int) : Int :=
  let yy := if m ≤ 2 then y - 1 else y
  let era := (if 0 ≤ yy then yy else yy - 399) / 400
  let yoe := yy - era * 400
  let mp := (m + 9) % 12
  let doy := (153 * mp + 2) / 5 + d - 1
  let doe := yoe * 365 + yoe / 4 - yoe / 100 + doy
  era * 146097 + doe - 719468

/-- pandas `.dt.dayofweek`: Monday = 0 … Sunday = 6. -/
def dayOfWeek (dt : Date) : Nat :=
  ((((daysFromCivil (dt.year : Int) (dt.month : Int) (dt.day : Int) + 3) % 7) + 7) % 7).toNat

def MONTH_NAMES : List String :=
  ["January", "February", "March", "April", "May", "June", "July",
   "August", "September", "October", "November", "December"]

def DAY_NAMES : List String :=
  ["Monday", "Tuesday", "Wednesday", "Thursday", "Friday", "Saturday", "Sunday"]

def monthName (m : Nat) : String := MONTH_NAMES.getD (m - 1) ""

def dayName (d : Nat) : String := DAY_NAMES.getD d ""

/-- Day of year, 1-based. -/
def dayOfYear (dt : Date) : Nat :=
  (List.range (dt.month - 1)).foldl (fun acc i => acc + daysInMonth dt.year (i + 1)) 0 + dt.day

/-- Weekday of Dec 31 of year `y` (0 = Sunday) in the Gregorian calendar. -/
def decemberDow (y : Int) : Int := (y + y / 4 - y / 100 + y / 400) % 7

/-- Number of ISO weeks in year `y` (52 or 53). -/
def weeksInISOYear (y : Int) : Int :=
  if decemberDow y = 4 ∨ decemberDow (y - 1) = 3 then 53 else 52

/-- pandas `.dt.isocalendar().week`: ISO-8601 week number. -/
def isoWeek (dt : Date) : Int :=
  let dow1 : Int := (dayOfWeek dt : Int) + 1
  let w : Int := ((dayOfYear dt : Int) - dow1 + 10) / 7
  if w < 1 then weeksInISOYear ((dt.year : Int) - 1)
  else if weeksInISOYear (dt.year : Int) < w then 1
  else w

/-- All enrichment columns of one record given the whole batch `df` and the
record's parsed date. Each field mirrors the corresponding DataTransformer
step; the steps all preserve row order and only add columns, so the
sequential column additions are collapsed into one record constructor. -/
def mkEnriched (df : List VRecord) (r : VRecord) (d : Date) : ERecord :=
  let rev := revenueOf r
  { base := { r with date := dateToString d }
    revenue := rev
    year := d.year
    month := d.month
    month_name := monthName d.month
    quarter := (d.month + 2) / 3
    day_of_week := dayOfWeek d
    day_name := dayName (dayOfWeek d)
    week_of_year := isoWeek d
    is_business_day := decide (dayOfWeek d < 5)
    revenue_category := get_revenue_category rev
    product_category := lookupCategory r.product
    customer_segment := get_customer_segment (customerTotal df r.customer_id)
    price_percentile := pctRank r.price (productPrices df r.product)
    is_high_value := decide (quantileLin (df.map revenueOf) (9 / 10) ≤ rev)
    is_bulk_purchase := decide (medianQ (productQuantities df r.product) < (r.quantity : ℚ))
    quantity_percentile := pctRank (r.quantity : ℚ) (productQuantities df r.product)
    regional_avg_revenue := round2 (regionalMean df r.region)
    above_regional_avg := decide (round2 (regionalMean df r.region) < rev) }

/-- Enrich one record; fails (pandas raises) when its date does not parse. -/
def enrichRecord (df : List VRecord) (r : VRecord) : Option ERecord :=
  (parseDate? r.date).map (mkEnriched df r)

/-- Enrich every row of the batch in order. -/
def enrichAll (df : List VRecord) : List VRecord → Option (List ERecord)
  | [] => some []
  | r :: rs => do
    let e ← enrichRecord df r
    let es ← enrichAll df rs
    some (e :: es)

/-! ### Column-level model of the transform pipeline -/

/-- `df[name] = ...`: overwrite in place if the column exists, else append. -/
def addCol (cols : List String) (c : String) : List String :=
  if c ∈ cols then cols else cols ++ [c]

/-- Column effect of `df.merge(right, ...)`: colliding names get the pandas
default suffixes `_x` (left) and `_y` (right). -/
def mergeCols (left right : List String) : List String :=
  (left.map (fun c => if c ∈ right then c ++ "_x" else c))
    ++ (right.map (fun c => if c ∈ left then c ++ "_y" else c))

/-- The header evolution of `DataTransformer.transform_data`: each step's
column assignments in source order. `add_customer_segments` contributes its
merge with the single-column frame `['customer_segment']` followed
immediately by the `df['customer_segment'].value_counts()` access used for
the distribution log: when the merge collided and suffixed the column away,
that access raises a `KeyError`, aborting the run (`none`). -/
def transformCols (cols : List String) : Option (List String) :=
  let c1 := addCol cols "revenue"
  let c2 := ["year", "month", "month_name", "quarter", "day_of_week",
             "day_name", "week_of_year", "is_business_day"].foldl addCol c1
  let c3 := addCol c2 "revenue_category"
  let c4 := addCol c3 "product_category"
  let c5 := mergeCols c4 ["customer_segment"]
  if "customer_segment" ∈ c5 then
    some (["price_percentile", "is_high_value", "is_bulk_purchase",
      "quantity_percentile", "regional_avg_revenue", "above_regional_avg"].foldl addCol c5)
  else none

/-- The transformer's metrics dictionary (elapsed time is out of scope). -/
structure TMetrics where
  records_processed : Nat
  columns_added : Nat
  avg_revenue : ℚ
  total_revenue : ℚ
deriving Repr, DecidableEq, Inhabited

/-- `DataTransformer.transform_data` on a seven-column validated batch:
enrich every row, and report the metrics (`total_revenue`/`avg_revenue` are
computed by `calculate_revenue` from the rounded revenue column; the mean of
an empty column is NaN in pandas and is not modelled — the claims about it
assume a nonempty batch). -/
def transform_data (df : List VRecord) : Option (List ERecord × TMetrics) := do
  let eb ← enrichAll df df
  some (eb,
    { records_processed := eb.length
      columns_added := ((transformCols REQUIRED_COLUMNS).getD []).length - REQUIRED_COLUMNS.length
      avg_revenue := (df.map revenueOf).sum / (df.length : ℚ)
      total_revenue := (df.map revenueOf).sum })

/-! ## Concrete batches used by the claims -/

/-- An empty raw frame: the required header with zero data rows. -/
def emptyFrame : Frame := { cols := REQUIRED_COLUMNS, rows := [] }

def rawT1 : RawRow :=
  ⟨some "T1", some "2024-01-01", some "North", some "Laptop", some "2", some "500.00", some "C1"⟩

def rawT2 : RawRow :=
  ⟨some "T2", some "2024-01-02", some "West", some "Cable", some "5", some "2.00", some "C2"⟩

/-- The spec's example scenario: T1, an exact duplicate of T1, and T2. -/
def exampleFrame : Frame := ⟨REQUIRED_COLUMNS, [rawT1, rawT1, rawT2]⟩

def vT1 : VRecord := ⟨"T1", "2024-01-01", "North", "Laptop", 2, 500, "C1"⟩

def vT2 : VRecord := ⟨"T2", "2024-01-02", "West", "Cable", 5, 2, "C2"⟩

/-- The validated two-record batch of the example scenario. -/
def exampleVB : List VRecord := [vT1, vT2]

def eT1 : ERecord :=
  ⟨vT1, 1000, 2024, 1, "January", 1, 0, "Monday", 1, true, "High", "Computing",
    "Silver", 1, true, false, 1, 1000, false⟩

def eT2 : ERecord :=
  ⟨vT2, 10, 2024, 1, "January", 1, 1, "Tuesday", 1, true, "Low", "Accessories",
    "Bronze", 1, false, false, 1, 10, false⟩

def exampleEB : List ERecord := [eT1, eT2]

def exampleTM : TMetrics := ⟨2, 18, 505, 1010⟩

/-- A region whose mean revenue (2999/300) rounds up to 10.00 while two of
its records have revenue exactly 10. -/
def cexVB : List VRecord :=
  [⟨"T1", "2024-01-01", "North", "Laptop", 1, 10, "C1"⟩,
   ⟨"T2", "2024-01-01", "North", "Laptop", 1, 10, "C2"⟩,
   ⟨"T3", "2024-01-01", "North", "Laptop", 1, 999 / 100, "C3"⟩]

/-- A valid record with a parameterized quantity, for boundary checks. -/
def bRec (q : Int) : VRecord := ⟨"B1", "2024-01-01", "North", "Laptop", q, 10, "C9"⟩

/-- A record violating both the quantity and the price dimension. -/
def doubleBad : VRecord := ⟨"B2", "2024-01-01", "North", "Laptop", 1001, 0, "C9"⟩

/-! ## Helper lemmas -/

theorem transform_data_elim (df : List VRecord) {eb : List ERecord} {m : TMetrics}
    (h : transform_data df = some (eb, m)) :
    enrichAll df df = some eb ∧ m.records_processed = eb.length ∧
      m.total_revenue = (df.map revenueOf).sum ∧
      m.avg_revenue = (df.map revenueOf).sum / (df.length : ℚ) := by
  unfold transform_data at h
  cases he : enrichAll df df with
  | none => rw [he] at h; simp at h
  | some eb2 =>
    rw [he] at h
    simp only [Option.bind_eq_bind, Option.some_bind, Option.some.injEq, Prod.mk.injEq] at h
    obtain ⟨h1, h2⟩ := h
    subst h1
    subst h2
    exact ⟨rfl, rfl, rfl, rfl⟩

theorem enrichAll_forall2 (df : List VRecord) :
    ∀ {l : List VRecord} {out : List ERecord}, enrichAll df l = some out →
      List.Forall₂ (fun r e => enrichRecord df r = some e) l out := by
  intro l
  induction l with
  | nil =>
    intro out h
    simp only [enrichAll, Option.some.injEq] at h
    subst h
    exact List.Forall₂.nil
  | cons r rs ih =>
    intro out h
    simp only [enrichAll, Option.bind_eq_bind] at h
    cases he : enrichRecord df r with
    | none => rw [he] at h; simp at h
    | some e =>
      rw [he] at h
      cases hr : enrichAll df rs with
      | none => rw [hr] at h; simp at h
      | some es =>
        rw [hr] at h
        simp only [Option.some_bind, Option.some.injEq] at h
        subst h
        exact List.Forall₂.cons he (ih hr)

theorem enrichRecord_elim {df : List VRecord} {r : VRecord} {e : ERecord}
    (h : enrichRecord df r = some e) :
    ∃ d, parseDate? r.date = some d ∧ e = mkEnriched df r d := by
  unfold enrichRecord at h
  obtain ⟨d, hd, he⟩ := Option.map_eq_some'.mp h
  exact ⟨d, hd, he.symm⟩

@[simp] theorem mkEnriched_base (df : List VRecord) (r : VRecord) (d : Date) :
    (mkEnriched df r d).base = { r with date := dateToString d } := rfl

@[simp] theorem mkEnriched_revenue (df : List VRecord) (r : VRecord) (d : Date) :
    (mkEnriched df r d).revenue = revenueOf r := rfl

@[simp] theorem mkEnriched_segment (df : List VRecord) (r : VRecord) (d : Date) :
    (mkEnriched df r d).customer_segment
      = get_customer_segment (customerTotal df r.customer_id) := rfl

theorem forall2_rev_map (df : List VRecord) {l : List VRecord} {out : List ERecord}
    (h : List.Forall₂ (fun r e => enrichRecord df r = some e) l out) :
    out.map ERecord.revenue = l.map revenueOf := by
  induction h with
  | nil => rfl
  | @cons a b l1 l2 hre htl ih =>
    obtain ⟨d, hd, he⟩ := enrichRecord_elim hre
    subst he
    simp [List.map_cons, ih]

theorem forall2_filter_rev (df : List VRecord)
    (fkey : VRecord → String) (gkey : ERecord → String)
    (hkey : ∀ r d, gkey (mkEnriched df r d) = fkey r) (k : String)
    {l : List VRecord} {out : List ERecord}
    (h : List.Forall₂ (fun r e => enrichRecord df r = some e) l out) :
    (out.filter (fun e => decide (gkey e = k))).map ERecord.revenue
      = ((l.filter (fun r => decide (fkey r = k))).map revenueOf) := by
  induction h with
  | nil => rfl
  | @cons a b l1 l2 hre htl ih =>
    obtain ⟨d, hd, he⟩ := enrichRecord_elim hre
    subst he
    by_cases hk : fkey a = k
    · simp [List.filter_cons, hkey, hk, ih]
    · simp [List.filter_cons, hkey, hk, ih]

theorem countLT_add_countEQ_le_length (v : ℚ) (l : List ℚ) :
    l.countP (fun x => decide (x < v)) + l.countP (fun x => decide (x = v)) ≤ l.length := by
  induction l with
  | nil => simp
  | cons a l ih =>
    by_cases h2 : a = v
    · subst h2
      simp [List.countP_cons]
      omega
    · by_cases h1 : a < v <;> simp [List.countP_cons, h1, h2] <;> omega

theorem countLT_add_countEQ_le_countLT (v w : ℚ) (hvw : v < w) (l : List ℚ) :
    l.countP (fun x => decide (x < v)) + l.countP (fun x => decide (x = v))
      ≤ l.countP (fun x => decide (x < w)) := by
  induction l with
  | nil => simp
  | cons a l ih =>
    by_cases h2 : a = v
    · subst h2
      simp [List.countP_cons, hvw]
      omega
    · by_cases h1 : a < v
      · have haw : a < w := lt_trans h1 hvw
        simp [List.countP_cons, h1, h2, haw]
        omega
      · by_cases h3 : a < w <;> simp [List.countP_cons, h1, h2, h3] <;> omega

theorem countEQ_pos {v : ℚ} {l : List ℚ} (h : v ∈ l) :
    0 < l.countP (fun x => decide (x = v)) :=
  List.countP_pos_iff.mpr ⟨v, h, by simp⟩

theorem pctRank_pos {v : ℚ} {l : List ℚ} (h : v ∈ l) : 0 < pctRank v l := by
  unfold pctRank
  have hlen : 0 < l.length := List.length_pos.mpr (List.ne_nil_of_mem h)
  have hlt : (0 : ℚ) ≤ (l.countP (fun x => decide (x < v)) : ℚ) := by positivity
  have heq : (0 : ℚ) < ((l.countP (fun x => decide (x = v)) : ℚ) + 1) / 2 := by positivity
  have hlenq : (0 : ℚ) < (l.length : ℚ) := by exact_mod_cast hlen
  exact div_pos (by linarith) hlenq

theorem pctRank_le_one {v : ℚ} {l : List ℚ} (h : v ∈ l) : pctRank v l ≤ 1 := by
  unfold pctRank
  have hlen : 0 < l.length := List.length_pos.mpr (List.ne_nil_of_mem h)
  have hlenq : (0 : ℚ) < (l.length : ℚ) := by exact_mod_cast hlen
  rw [div_le_one hlenq]
  have h1 : 1 ≤ l.countP (fun x => decide (x = v)) := countEQ_pos h
  have h2 := countLT_add_countEQ_le_length v l
  have h1q : (1 : ℚ) ≤ (l.countP (fun x => decide (x = v)) : ℚ) := by exact_mod_cast h1
  have h2q : (l.countP (fun x => decide (x < v)) : ℚ)
      + (l.countP (fun x => decide (x = v)) : ℚ) ≤ (l.length : ℚ) := by exact_mod_cast h2
  linarith

theorem pctRank_mono {v w : ℚ} {l : List ℚ} (hv : v ∈ l) (hw : w ∈ l) (hvw : v ≤ w) :
    pctRank v l ≤ pctRank w l := by
  rcases eq_or_lt_of_le hvw with heq | hlt
  · subst heq; exact le_refl _
  · unfold pctRank
    have hlen : 0 < l.length := List.length_pos.mpr (List.ne_nil_of_mem hv)
    have hlenq : (0 : ℚ) < (l.length : ℚ) := by exact_mod_cast hlen
    rw [div_le_div_iff_of_pos_right hlenq]
    have h1 : 1 ≤ l.countP (fun x => decide (x = v)) := countEQ_pos hv
    have h2 := countLT_add_countEQ_le_countLT v w hlt l
    have h1q : (1 : ℚ) ≤ (l.countP (fun x => decide (x = v)) : ℚ) := by exact_mod_cast h1
    have h2q : (l.countP (fun x => decide (x < v)) : ℚ)
        + (l.countP (fun x => decide (x = v)) : ℚ)
        ≤ (l.countP (fun x => decide (x < w)) : ℚ) := by exact_mod_cast h2
    have h3 : (0 : ℚ) ≤ (l.countP (fun x => decide (x = w)) : ℚ) := by positivity
    linarith

theorem mem_productPrices {df : List VRecord} {r : VRecord} (h : r ∈ df) :
    r.price ∈ productPrices df r.product :=
  List.mem_map_of_mem _ (List.mem_filter.mpr ⟨h, by simp⟩)

theorem mem_productQuantities {df : List VRecord} {r : VRecord} (h : r ∈ df) :
    (r.quantity : ℚ) ∈ productQuantities df r.product :=
  List.mem_map_of_mem _ (List.mem_filter.mpr ⟨h, by simp⟩)

theorem dVal_dChar (k : Nat) (hk : k < 10) : dVal (dChar k) = some k := by
  interval_cases k <;> decide

theorem daysInMonth_le (y m : Nat) : daysInMonth y m ≤ 31 := by
  unfold daysInMonth
  split_ifs <;> omega

theorem parse_dateToString (dt : Date) (h : dateOK dt) :
    parseDate? (dateToString dt) = some dt := by
  obtain ⟨y, m, d⟩ := dt
  obtain ⟨hy1, hy2, hm1, hm2, hd1, hd2⟩ := h
  dsimp only at hy1 hy2 hm1 hm2 hd1 hd2
  have hdm : d ≤ 31 := le_trans hd2 (daysInMonth_le y m)
  have e1 := dVal_dChar (y / 1000) (by omega)
  have e2 := dVal_dChar (y / 100 % 10) (by omega)
  have e3 := dVal_dChar (y / 10 % 10) (by omega)
  have e4 := dVal_dChar (y % 10) (by omega)
  have e5 := dVal_dChar (m / 10) (by omega)
  have e6 := dVal_dChar (m % 10) (by omega)
  have e7 := dVal_dChar (d / 10) (by omega)
  have e8 := dVal_dChar (d % 10) (by omega)
  show parseDateList [dChar (y / 1000), dChar (y / 100 % 10), dChar (y / 10 % 10),
    dChar (y % 10), '-', dChar (m / 10), dChar (m % 10), '-',
    dChar (d / 10), dChar (d % 10)] = some ⟨y, m, d⟩
  simp only [parseDateList, and_self, if_true, e1, e2, e3, e4, e5, e6, e7, e8,
    Option.bind_eq_bind, Option.some_bind]
  have hy : 1000 * (y / 1000) + 100 * (y / 100 % 10) + 10 * (y / 10 % 10) + y % 10 = y := by
    omega
  have hm : 10 * (m / 10) + m % 10 = m := by omega
  have hd : 10 * (d / 10) + d % 10 = d := by omega
  rw [hy, hm, hd]
  unfold mkValidDate
  rw [if_pos ⟨hy1, hy2, hm1, hm2, hd1, hd2⟩]

theorem forall2_mem_right {α β : Type} {R : α → β → Prop} :
    ∀ {l : List α} {out : List β}, List.Forall₂ R l out → ∀ {e : β}, e ∈ out →
      ∃ r ∈ l, R r e := by
  intro l out h
  induction h with
  | nil => intro e he; simp at he
  | @cons a b l1 l2 hab htl ih =>
    intro e he
    rcases List.mem_cons.mp he with rfl | hmem
    · exact ⟨a, List.mem_cons_self a l1, hab⟩
    · obtain ⟨r, hr, hre⟩ := ih hmem
      exact ⟨r, List.mem_cons_of_mem _ hr, hre⟩

/-! ## The claims -/

/-- Claim C1: for every record in the batch returned by transform, the added
`revenue` field equals `quantity * price` rounded to 2 decimal places, and the
metrics' `total_revenue` and `avg_revenue` equal the sum and mean of these
per-record revenues over the whole batch. -/
theorem claim_C1_revenue (df : List VRecord) (eb : List ERecord) (m : TMetrics)
    (h : transform_data df = some (eb, m)) :
    (∀ e ∈ eb, e.revenue = round2 ((e.base.quantity : ℚ) * e.base.price))
  ∧ m.total_revenue = (eb.map ERecord.revenue).sum
  ∧ (eb ≠ [] → m.avg_revenue = (eb.map ERecord.revenue).sum / (eb.length : ℚ)) := by
  obtain ⟨hall, hrp, htot, havg⟩ := transform_data_elim df h
  have hf2 := enrichAll_forall2 df hall
  refine ⟨?_, ?_, ?_⟩
  · intro e he
    obtain ⟨r, hr, hre⟩ := forall2_mem_right hf2 he
    obtain ⟨d, hd, heq⟩ := enrichRecord_elim hre
    subst heq
    simp [revenueOf]
  · rw [htot, ← forall2_rev_map df hf2]
  · intro hne
    rw [havg, ← forall2_rev_map df hf2, hf2.length_eq]

section
unseal Rat.add Rat.mul Rat.inv Rat.sub

/-- Witness for C1 on the example two-record batch. -/
theorem claim_C1_revenue_witness :
    eT1.revenue = round2 ((eT1.base.quantity : ℚ) * eT1.base.price)
  ∧ exampleTM.total_revenue = (exampleEB.map ERecord.revenue).sum
  ∧ exampleTM.avg_revenue = (exampleEB.map ERecord.revenue).sum / (exampleEB.length : ℚ) := by
  have hc := claim_C1_revenue exampleVB exampleEB exampleTM (by decide)
  exact ⟨hc.1 eT1 (by decide), hc.2.1, hc.2.2 (by decide)⟩

end

/-- Claim C2 (code behaviour at the failing input): on the empty batch with
the required header, every cleaning rule yields zero removals and zero valid
records, but `process_file` hits the unguarded rejection-rate division
`(total - valid) / total` and faults instead of reporting a 0 rate. -/
theorem claim_C2_empty_batch_fault :
    process_file emptyFrame = Except.error VError.zeroDivision
  ∧ remove_duplicates [] = ([], 0)
  ∧ remove_nulls [] = ([], 0)
  ∧ validate_data_types [] = []
  ∧ validate_dates [] = []
  ∧ validate_business_rules [] = ([], ⟨0, 0, 0⟩) := by
  refine ⟨rfl, rfl, rfl, rfl, rfl, rfl⟩

/-- Claim C3: within one transformed batch, records sharing a `customer_id`
carry the same `customer_segment`, and that segment is the ascending-threshold
bucket (500 / 2000 / 5000) of the sum of `revenue` over that customer's
records of the current batch only. -/
theorem claim_C3_segment_consistency (df : List VRecord) (eb : List ERecord) (m : TMetrics)
    (h : transform_data df = some (eb, m)) :
    (∀ e1 ∈ eb, ∀ e2 ∈ eb, e1.base.customer_id = e2.base.customer_id →
      e1.customer_segment = e2.customer_segment)
  ∧ (∀ e ∈ eb,
      (((eb.filter (fun x => decide (x.base.customer_id = e.base.customer_id))).map
          ERecord.revenue).sum < 500 → e.customer_segment = "Bronze")
    ∧ (500 ≤ ((eb.filter (fun x => decide (x.base.customer_id = e.base.customer_id))).map
          ERecord.revenue).sum →
        ((eb.filter (fun x => decide (x.base.customer_id = e.base.customer_id))).map
          ERecord.revenue).sum < 2000 → e.customer_segment = "Silver")
    ∧ (2000 ≤ ((eb.filter (fun x => decide (x.base.customer_id = e.base.customer_id))).map
          ERecord.revenue).sum →
        ((eb.filter (fun x => decide (x.base.customer_id = e.base.customer_id))).map
          ERecord.revenue).sum < 5000 → e.customer_segment = "Gold")
    ∧ (5000 ≤ ((eb.filter (fun x => decide (x.base.customer_id = e.base.customer_id))).map
          ERecord.revenue).sum → e.customer_segment = "Platinum")) := by
  obtain ⟨hall, hrp, htot, havg⟩ := transform_data_elim df h
  have hf2 := enrichAll_forall2 df hall
  have htrans : ∀ (k : String),
      ((eb.filter (fun x => decide (x.base.customer_id = k))).map ERecord.revenue).sum
        = customerTotal df k := by
    intro k
    have hmap := forall2_filter_rev df VRecord.customer_id (fun e => e.base.customer_id)
      (fun r d => rfl) k hf2
    unfold customerTotal
    rw [hmap]
  have hseg : ∀ e ∈ eb,
      e.customer_segment = get_customer_segment (customerTotal df e.base.customer_id) := by
    intro e he
    obtain ⟨r, hr, hre⟩ := forall2_mem_right hf2 he
    obtain ⟨d, hd, heq⟩ := enrichRecord_elim hre
    subst heq
    simp
  refine ⟨?_, ?_⟩
  · intro e1 h1 e2 h2 hcid
    rw [hseg e1 h1, hseg e2 h2, hcid]
  · intro e he
    rw [hseg e he]
    rw [htrans e.base.customer_id]
    unfold get_customer_segment
    refine ⟨?_, ?_, ?_, ?_⟩
    · intro h1
      rw [if_pos h1]
    · intro h1 h2
      rw [if_neg (not_lt.mpr h1), if_pos h2]
    · intro h1 h2
      rw [if_neg (by linarith), if_neg (not_lt.mpr h1), if_pos h2]
    · intro h1
      rw [if_neg (by linarith), if_neg (by linarith), if_neg (not_lt.mpr (by linarith))]

section
unseal Rat.add Rat.mul Rat.inv Rat.sub

/-- Witness for C3 on the example two-record batch. -/
theorem claim_C3_segment_consistency_witness :
    eT1.customer_segment = "Silver" ∧ eT2.customer_segment = "Bronze" := by
  have hc := claim_C3_segment_consistency exampleVB exampleEB exampleTM (by decide)
  exact ⟨(hc.2 eT1 (by decide)).2.1 (by decide) (by decide), (hc.2 eT2 (by decide)).1 (by decide)⟩

end

/-- Claim C4: within each product group of a transformed batch, the price and
quantity percentiles are fractional average ranks: they lie in (0,1], equal
ranked values get equal percentiles, and they are monotone in the ranked
value. -/
theorem claim_C4_percentiles (df : List VRecord) (eb : List ERecord) (m : TMetrics)
    (h : transform_data df = some (eb, m)) :
    (∀ e ∈ eb, (0 < e.price_percentile ∧ e.price_percentile ≤ 1)
      ∧ (0 < e.quantity_percentile ∧ e.quantity_percentile ≤ 1))
  ∧ (∀ e1 ∈ eb, ∀ e2 ∈ eb, e1.base.product = e2.base.product →
      ((e1.base.price = e2.base.price → e1.price_percentile = e2.price_percentile)
      ∧ (e1.base.price ≤ e2.base.price → e1.price_percentile ≤ e2.price_percentile)
      ∧ (e1.base.quantity = e2.base.quantity →
          e1.quantity_percentile = e2.quantity_percentile)
      ∧ (e1.base.quantity ≤ e2.base.quantity →
          e1.quantity_percentile ≤ e2.quantity_percentile))) := by
  obtain ⟨hall, hrp, htot, havg⟩ := transform_data_elim df h
  have hf2 := enrichAll_forall2 df hall
  have key : ∀ e ∈ eb, ∃ r ∈ df, e.base.price = r.price ∧ e.base.quantity = r.quantity
      ∧ e.base.product = r.product
      ∧ e.price_percentile = pctRank r.price (productPrices df r.product)
      ∧ e.quantity_percentile = pctRank (r.quantity : ℚ) (productQuantities df r.product) := by
    intro e he
    obtain ⟨r, hr, hre⟩ := forall2_mem_right hf2 he
    obtain ⟨d, hd, heq⟩ := enrichRecord_elim hre
    subst heq
    exact ⟨r, hr, rfl, rfl, rfl, rfl, rfl⟩
  refine ⟨?_, ?_⟩
  · intro e he
    obtain ⟨r, hr, hp, hq, hpr, hpp, hqp⟩ := key e he
    rw [hpp, hqp]
    exact ⟨⟨pctRank_pos (mem_productPrices hr), pctRank_le_one (mem_productPrices hr)⟩,
      ⟨pctRank_pos (mem_productQuantities hr), pctRank_le_one (mem_productQuantities hr)⟩⟩
  · intro e1 h1 e2 h2 hprod
    obtain ⟨r1, hr1, hp1, hq1, hpr1, hpp1, hqp1⟩ := key e1 h1
    obtain ⟨r2, hr2, hp2, hq2, hpr2, hpp2, hqp2⟩ := key e2 h2
    have hgroup : r1.product = r2.product := by rw [← hpr1, ← hpr2, hprod]
    have hgp : productPrices df r1.product = productPrices df r2.product := by rw [hgroup]
    have hgq : productQuantities df r1.product = productQuantities df r2.product := by
      rw [hgroup]
    refine ⟨?_, ?_, ?_, ?_⟩
    · intro hpe
      have hre : r1.price = r2.price := by rw [← hp1, ← hp2, hpe]
      rw [hpp1, hpp2, hre, hgp]
    · intro hple
      have hrle : r1.price ≤ r2.price := by rw [← hp1, ← hp2]; exact hple
      rw [hpp1, hpp2, hgp]
      exact pctRank_mono (hgp ▸ mem_productPrices hr1) (mem_productPrices hr2) hrle
    · intro hqe
      have hre : r1.quantity = r2.quantity := by rw [← hq1, ← hq2, hqe]
      rw [hqp1, hqp2, hre, hgq]
    · intro hqle
      have hrle : (r1.quantity : ℚ) ≤ (r2.quantity : ℚ) := by
        have : r1.quantity ≤ r2.quantity := by rw [← hq1, ← hq2]; exact hqle
        exact_mod_cast this
      rw [hqp1, hqp2, hgq]
      exact pctRank_mono (hgq ▸ mem_productQuantities hr1) (mem_productQuantities hr2) hrle

section
unseal Rat.add Rat.mul Rat.inv Rat.sub

/-- Witness for C4 on the example two-record batch. -/
theorem claim_C4_percentiles_witness :
    ((0 < eT1.price_percentile ∧ eT1.price_percentile ≤ 1)
      ∧ (0 < eT1.quantity_percentile ∧ eT1.quantity_percentile ≤ 1))
  ∧ eT1.price_percentile ≤ eT1.price_percentile := by
  have hc := claim_C4_percentiles exampleVB exampleEB exampleTM (by decide)
  exact ⟨hc.1 eT1 (by decide), (hc.2 eT1 (by decide) eT1 (by decide) rfl).2.1 (le_refl _)⟩

end


theorem qty_violates (r : VRecord) :
    (decide (r.quantity < MIN_QUANTITY) || decide (MAX_QUANTITY < r.quantity))
      = !(decide (MIN_QUANTITY ≤ r.quantity) && decide (r.quantity ≤ MAX_QUANTITY)) := by
  by_cases h1 : r.quantity < MIN_QUANTITY
  · simp [h1, not_le.mpr h1]
  · by_cases h2 : MAX_QUANTITY < r.quantity
    · simp [h1, h2, not_le.mpr h2]
    · simp [h1, h2, not_lt.mp h1, not_lt.mp h2]

theorem price_violates (r : VRecord) :
    (decide (r.price < MIN_PRICE) || decide (MAX_PRICE < r.price))
      = !(decide (MIN_PRICE ≤ r.price) && decide (r.price ≤ MAX_PRICE)) := by
  by_cases h1 : r.price < MIN_PRICE
  · simp [h1, not_le.mpr h1]
  · by_cases h2 : MAX_PRICE < r.price
    · simp [h1, h2, not_le.mpr h2]
    · simp [h1, h2, not_lt.mp h1, not_lt.mp h2]

section
unseal Rat.add Rat.mul Rat.inv Rat.sub

/-- Claim C5: the business-rule step keeps a record iff its quantity, price
and region all lie within the inclusive bounds / valid set; each invalid
counter is the number of entering records violating that one dimension (so a
doubly-violating record is counted under both dimensions while removed once),
and the quantity upper bound is inclusive: 1000 is retained, 1001 is rejected
and counted under invalid_quantity. -/
theorem claim_C5_business_rules (rows : List VRecord) :
    (∀ r : VRecord, r ∈ (validate_business_rules rows).1 ↔ r ∈ rows
      ∧ (MIN_QUANTITY ≤ r.quantity ∧ r.quantity ≤ MAX_QUANTITY
        ∧ MIN_PRICE ≤ r.price ∧ r.price ≤ MAX_PRICE ∧ r.region ∈ VALID_REGIONS))
  ∧ (validate_business_rules rows).2.invalid_quantity
      = (rows.filter (fun r =>
          !(decide (MIN_QUANTITY ≤ r.quantity) && decide (r.quantity ≤ MAX_QUANTITY)))).length
  ∧ (validate_business_rules rows).2.invalid_price
      = (rows.filter (fun r =>
          !(decide (MIN_PRICE ≤ r.price) && decide (r.price ≤ MAX_PRICE)))).length
  ∧ (validate_business_rules rows).2.invalid_region
      = (rows.filter (fun r => !(VALID_REGIONS.contains r.region))).length
  ∧ (validate_business_rules [bRec 1000]).1 = [bRec 1000]
  ∧ (validate_business_rules [bRec 1001]).1 = []
  ∧ (validate_business_rules [bRec 1001]).2.invalid_quantity = 1
  ∧ (validate_business_rules [doubleBad]).1 = []
  ∧ (validate_business_rules [doubleBad]).2 = ⟨1, 1, 0⟩ := by
  refine ⟨?_, ?_, ?_, rfl, by decide, by decide, by decide, by decide, by decide⟩
  · intro r
    unfold validate_business_rules
    simp only [List.mem_filter, Bool.and_eq_true, decide_eq_true_eq, List.contains,
      List.elem_eq_mem]
    tauto
  · exact congrArg List.length (List.filter_congr (fun r _ => qty_violates r))
  · exact congrArg List.length (List.filter_congr (fun r _ => price_violates r))

/-- Witness for C5 on the example two-record batch. -/
theorem claim_C5_business_rules_witness :
    (validate_business_rules exampleVB).1 = exampleVB
  ∧ (validate_business_rules exampleVB).2.invalid_quantity
      = (exampleVB.filter (fun r =>
          !(decide (MIN_QUANTITY ≤ r.quantity) && decide (r.quantity ≤ MAX_QUANTITY)))).length :=
  ⟨by decide, (claim_C5_business_rules exampleVB).2.1⟩

end

section
unseal Rat.add Rat.mul Rat.inv Rat.sub

/-- Counterexample to claim C6 as stated: in `cexVB` the North region's mean
revenue is 2999/300 ≈ 9.9967, which rounds up to 10.00; the records with
revenue 10 exceed the region's (unrounded) mean revenue yet carry
`above_regional_avg = false`, because the code compares against the rounded
mean. -/
theorem claim_C6_counterexample :
    (transform_data cexVB).isSome = true
  ∧ ¬ (∀ e ∈ (((transform_data cexVB).map Prod.fst).getD []),
      (e.above_regional_avg = true ↔ regionalMean cexVB e.base.region < e.revenue)) :=
  ⟨by decide, by decide⟩

end

/-- Claim C6 (amended): `regional_avg_revenue` is the region's batch mean
revenue rounded to 2 decimals, and `above_regional_avg` holds exactly when
the record's revenue exceeds that attached rounded mean (not the unrounded
mean). -/
theorem claim_C6_regional (df : List VRecord) (eb : List ERecord) (m : TMetrics)
    (h : transform_data df = some (eb, m)) :
    ∀ e ∈ eb,
      e.regional_avg_revenue = round2
        ((((eb.filter (fun x => decide (x.base.region = e.base.region))).map
            ERecord.revenue).sum)
          / ((((eb.filter (fun x => decide (x.base.region = e.base.region))).map
            ERecord.revenue).length : ℚ)))
    ∧ (e.above_regional_avg = true ↔ e.regional_avg_revenue < e.revenue) := by
  obtain ⟨hall, hrp, htot, havg⟩ := transform_data_elim df h
  have hf2 := enrichAll_forall2 df hall
  have htrans : ∀ (k : String),
      (eb.filter (fun x => decide (x.base.region = k))).map ERecord.revenue
        = regionRevenues df k := by
    intro k
    have hmap := forall2_filter_rev df VRecord.region (fun e => e.base.region)
      (fun r d => rfl) k hf2
    unfold regionRevenues
    rw [hmap]
  intro e he
  obtain ⟨r, hr, hre⟩ := forall2_mem_right hf2 he
  obtain ⟨d, hd, heq⟩ := enrichRecord_elim hre
  subst heq
  refine ⟨?_, ?_⟩
  · rw [htrans]
    rfl
  · simp [mkEnriched]

section
unseal Rat.add Rat.mul Rat.inv Rat.sub

/-- Witness for the amended C6 on the example two-record batch. -/
theorem claim_C6_regional_witness :
    eT1.regional_avg_revenue = round2
      ((((exampleEB.filter (fun x => decide (x.base.region = eT1.base.region))).map
          ERecord.revenue).sum)
        / ((((exampleEB.filter (fun x => decide (x.base.region = eT1.base.region))).map
          ERecord.revenue).length : ℚ)))
  ∧ (eT1.above_regional_avg = true ↔ eT1.regional_avg_revenue < eT1.revenue) :=
  claim_C6_regional exampleVB exampleEB exampleTM (by decide) eT1 (by decide)

end

section
unseal Rat.add Rat.mul Rat.inv Rat.sub

/-- Claim C7: on the raw batch [T1, duplicate of T1, T2], the validator
yields exactly the two records [T1, T2] (first occurrence kept) with
`duplicates_removed = 1` and `valid_records = 2`, and the transformer gives
T1 revenue 1000 / category Computing and T2 revenue 10 / category
Accessories. -/
theorem claim_C7_example_scenario :
    process_file exampleFrame = Except.ok ([vT1, vT2],
      ⟨3, 2, 1, 0, 0, 0, 0, 0, 3333 / 100⟩)
  ∧ transform_data [vT1, vT2] = some (exampleEB, exampleTM)
  ∧ eT1.base.transaction_id = "T1" ∧ eT1.revenue = 1000
  ∧ eT1.product_category = "Computing"
  ∧ eT2.base.transaction_id = "T2" ∧ eT2.revenue = 10
  ∧ eT2.product_category = "Accessories" :=
  ⟨by rfl, by decide, rfl, rfl, rfl, rfl, rfl, rfl⟩

end

/-- Claim C8: the schema check fails (with a fatal error that short-circuits
the whole pipeline, so no cleaned output is produced) iff some required
column is absent; when all required columns are present it returns the batch
restricted to exactly the required columns in the catalog's declared order. -/
theorem claim_C8_schema (f : Frame) :
    ((∃ c ∈ REQUIRED_COLUMNS, c ∉ f.cols) →
      validate_schema f = Except.error VError.schemaError
      ∧ process_file f = Except.error VError.schemaError)
  ∧ ((∀ c ∈ REQUIRED_COLUMNS, c ∈ f.cols) →
      validate_schema f = Except.ok { cols := REQUIRED_COLUMNS, rows := f.rows }) := by
  constructor
  · rintro ⟨c, hc, hnc⟩
    have hall : REQUIRED_COLUMNS.all (fun c => f.cols.contains c) = false := by
      refine Bool.eq_false_iff.mpr ?_
      intro hAll
      rw [List.all_eq_true] at hAll
      exact hnc (by simpa [List.contains, List.elem_eq_mem] using hAll c hc)
    have hvs : validate_schema f = Except.error VError.schemaError := by
      unfold validate_schema
      rw [hall]
      rfl
    refine ⟨hvs, ?_⟩
    unfold process_file
    rw [hvs]
    rfl
  · intro hcols
    have hall : REQUIRED_COLUMNS.all (fun c => f.cols.contains c) = true := by
      rw [List.all_eq_true]
      intro c hc
      simpa [List.contains, List.elem_eq_mem] using hcols c hc
    unfold validate_schema
    rw [hall]
    rfl

/-- Witness for C8: a frame missing most required columns is rejected before
any rule runs, and the example frame's schema passes with exactly the
required columns. -/
theorem claim_C8_schema_witness :
    (validate_schema ⟨["transaction_id"], []⟩ = Except.error VError.schemaError
      ∧ process_file ⟨["transaction_id"], []⟩ = Except.error VError.schemaError)
  ∧ validate_schema exampleFrame
      = Except.ok { cols := REQUIRED_COLUMNS, rows := exampleFrame.rows } :=
  ⟨(claim_C8_schema ⟨["transaction_id"], []⟩).1 (by decide),
    (claim_C8_schema exampleFrame).2 (by decide)⟩

theorem mem_addCol {c : String} {cols : List String} (x : String) (h : c ∈ cols) :
    c ∈ addCol cols x := by
  unfold addCol
  split
  · exact h
  · exact List.mem_append_left _ h

theorem mem_foldl_addCol {c : String} (names : List String) :
    ∀ {cols : List String}, c ∈ cols → c ∈ names.foldl addCol cols := by
  induction names with
  | nil => intro cols h; exact h
  | cons n ns ih => intro cols h; exact ih (mem_addCol n h)

theorem cs_not_mem_mergeCols (cols : List String) (h : "customer_segment" ∈ cols) :
    "customer_segment" ∉ mergeCols cols ["customer_segment"] := by
  intro hmem
  unfold mergeCols at hmem
  rcases List.mem_append.mp hmem with hl | hr
  · obtain ⟨c, hc, hceq⟩ := List.mem_map.mp hl
    by_cases hcs : c ∈ ["customer_segment"]
    · rw [if_pos hcs] at hceq
      have hce : c = "customer_segment" := by simpa using hcs
      subst hce
      exact absurd hceq (by decide)
    · rw [if_neg hcs] at hceq
      exact hcs (by simp [hceq])
  · obtain ⟨c, hc, hceq⟩ := List.mem_map.mp hr
    have hce : c = "customer_segment" := by simpa using hc
    subst hce
    rw [if_pos h] at hceq
    exact absurd hceq (by decide)

/-- Claim C9: applying transform to an already-enriched batch is rejected
with an error. On any header that already contains the derived column
`customer_segment` — as every enriched header does — the merge in
`add_customer_segments` suffixes the collision to `customer_segment_x` /
`customer_segment_y`, and the `df['customer_segment']` access on the very
next line raises a `KeyError`, aborting the run before any output is
written; the first pass from the required columns succeeds and its header
contains `customer_segment`, so a second transform always takes the
claim's "rejected" arm. -/
theorem claim_C9_double_transform :
    (∀ cols : List String, "customer_segment" ∈ cols → transformCols cols = none)
  ∧ transformCols REQUIRED_COLUMNS = some (REQUIRED_COLUMNS ++
      ["revenue", "year", "month", "month_name", "quarter", "day_of_week", "day_name",
       "week_of_year", "is_business_day", "revenue_category", "product_category",
       "customer_segment", "price_percentile", "is_high_value", "is_bulk_purchase",
       "quantity_percentile", "regional_avg_revenue", "above_regional_avg"])
  ∧ "customer_segment" ∈ REQUIRED_COLUMNS ++
      ["revenue", "year", "month", "month_name", "quarter", "day_of_week", "day_name",
       "week_of_year", "is_business_day", "revenue_category", "product_category",
       "customer_segment", "price_percentile", "is_high_value", "is_bulk_purchase",
       "quantity_percentile", "regional_avg_revenue", "above_regional_avg"] := by
  refine ⟨?_, by decide, by decide⟩
  intro cols h
  have h4 : "customer_segment" ∈ addCol (addCol
      ((["year", "month", "month_name", "quarter", "day_of_week",
        "day_name", "week_of_year", "is_business_day"].foldl addCol
          (addCol cols "revenue"))) "revenue_category") "product_category" :=
    mem_addCol _ (mem_addCol _ (mem_foldl_addCol _ (mem_addCol _ h)))
  simp only [transformCols]
  rw [if_neg (cs_not_mem_mergeCols _ h4)]

/-- Witness for C9: the enriched header itself (required columns plus the 18
derived ones) is rejected by a second pass of the column pipeline. -/
theorem claim_C9_double_transform_witness :
    transformCols (REQUIRED_COLUMNS ++
      ["revenue", "year", "month", "month_name", "quarter", "day_of_week", "day_name",
       "week_of_year", "is_business_day", "revenue_category", "product_category",
       "customer_segment", "price_percentile", "is_high_value", "is_bulk_purchase",
       "quantity_percentile", "regional_avg_revenue", "above_regional_avg"]) = none :=
  claim_C9_double_transform.1 (REQUIRED_COLUMNS ++
      ["revenue", "year", "month", "month_name", "quarter", "day_of_week", "day_name",
       "week_of_year", "is_business_day", "revenue_category", "product_category",
       "customer_segment", "price_percentile", "is_high_value", "is_bulk_purchase",
       "quantity_percentile", "regional_avg_revenue", "above_regional_avg"]) (by decide)

/-- Claim C10: transform only adds columns — the output has the same records
in the same order (`records_processed` is the input length), every original
column of every record is unchanged (the normalized date string re-serializes
to itself), and the output header is the input header followed by the
eighteen derived columns. -/
theorem claim_C10_frame (df : List VRecord) (eb : List ERecord) (m : TMetrics)
    (h : transform_data df = some (eb, m))
    (hdates : ∀ r ∈ df, ∃ d, dateOK d ∧ r.date = dateToString d) :
    eb.length = df.length
  ∧ m.records_processed = df.length
  ∧ (∀ (i : Nat) (h1 : i < df.length) (h2 : i < eb.length),
      (eb.get ⟨i, h2⟩).base = df.get ⟨i, h1⟩)
  ∧ transformCols REQUIRED_COLUMNS = some (REQUIRED_COLUMNS ++
      ["revenue", "year", "month", "month_name", "quarter", "day_of_week", "day_name",
       "week_of_year", "is_business_day", "revenue_category", "product_category",
       "customer_segment", "price_percentile", "is_high_value", "is_bulk_purchase",
       "quantity_percentile", "regional_avg_revenue", "above_regional_avg"]) := by
  obtain ⟨hall, hrp, htot, havg⟩ := transform_data_elim df h
  have hf2 := enrichAll_forall2 df hall
  have hlen := hf2.length_eq
  refine ⟨hlen.symm, by rw [hrp]; exact hlen.symm, ?_, by decide⟩
  intro i h1 h2
  have hrel : enrichRecord df (df.get ⟨i, h1⟩) = some (eb.get ⟨i, h2⟩) :=
    (List.forall₂_iff_get.mp hf2).2 i h1 h2
  obtain ⟨d, hd, heq⟩ := enrichRecord_elim hrel
  obtain ⟨d0, hd0ok, hd0eq⟩ := hdates (df.get ⟨i, h1⟩) (List.get_mem df i h1)
  have hps : parseDate? (df.get ⟨i, h1⟩).date = some d0 := by
    rw [hd0eq]
    exact parse_dateToString d0 hd0ok
  have hdd : d0 = d := by
    rw [hps] at hd
    exact (Option.some.injEq _ _).mp hd
  have hds : dateToString d = (df.get ⟨i, h1⟩).date := by
    rw [← hdd]
    exact hd0eq.symm
  rw [heq, mkEnriched_base, hds]

section
unseal Rat.add Rat.mul Rat.inv Rat.sub

/-- Witness for C10 on the example two-record batch. -/
theorem claim_C10_frame_witness :
    exampleEB.length = exampleVB.length
  ∧ exampleTM.records_processed = exampleVB.length
  ∧ (exampleEB.get ⟨0, by decide⟩).base = exampleVB.get ⟨0, by decide⟩ := by
  have hc := claim_C10_frame exampleVB exampleEB exampleTM (by decide) ?hdates
  · exact ⟨hc.1, hc.2.1, hc.2.2.1 0 (by decide) (by decide)⟩
  case hdates =>
    intro r hr
    have hr2 : r = vT1 ∨ r = vT2 := by simpa [exampleVB] using hr
    rcases hr2 with h | h
    · exact ⟨⟨2024, 1, 1⟩, by decide, by rw [h]; rfl⟩
    · exact ⟨⟨2024, 1, 2⟩, by decide, by rw [h]; rfl⟩

end
